import Mathlib

/-!
# Ludo Royal — verified model of the rules engine

Shallow embedding of the two rule-engine variants of the repository:
`App` models `app.py` (blocking + triple-six + extra-turn flag) and
`Server` models `server.py` (the simpler `GameRoom` variant).

Token encoding follows the source records:
`pos = -1` at base, `pos ∈ 0..51` on the shared track, `pos = -2` marks
"in home stretch" (app.py), `stretch ∈ 0..5` lane index, `finished` flag.
Python's `%` on a positive modulus agrees with `Int.emod`.
-/

inductive Color : Type
  | red | blue | green | yellow
deriving DecidableEq, Repr

def COLORS : List Color := [.red, .blue, .green, .yellow]

def colorOf (i : Nat) : Color := COLORS.getD i .red

inductive Event : Type
  | blocked (color : Color)
  | capture (attacker victim : Color)
  | home (color : Color)
  | win (color : Color)
deriving DecidableEq, Repr

def Event.isCapture : Event → Bool
  | .capture _ _ => true
  | _ => false

def Event.isWin : Event → Bool
  | .win _ => true
  | _ => false

def Event.isHome : Event → Bool
  | .home _ => true
  | _ => false

namespace App

structure Token where
  id : Nat
  pos : Int
  stretch : Int
  finished : Bool
deriving DecidableEq, Repr

def make_token (idx : Nat) : Token :=
  { id := idx, pos := -1, stretch := -1, finished := false }

structure Player where
  color : Color
  tokens : List Token
  finished_count : Nat
  last_moved_token : Option Nat
deriving DecidableEq, Repr

def make_player (c : Color) : Player :=
  { color := c
    tokens := [make_token 0, make_token 1, make_token 2, make_token 3]
    finished_count := 0
    last_moved_token := none }

/-- The game/session record of `app.py`.  `six_streak` models the
`player_idx → count` dict (missing keys read as 0, so a total function). -/
structure Game where
  players : List Player
  current_player : Nat
  dice_value : Int
  rolled : Bool
  game_over : Bool
  winner : Option Color
  six_streak : Nat → Nat
  extra_turn : Bool

def START_IDX : Color → Int
  | .red => 0 | .blue => 13 | .yellow => 26 | .green => 39

def ENTRY_BEFORE_HOME : Color → Int
  | .red => 51 | .blue => 11 | .green => 37 | .yellow => 24

def SAFE_SQUARES : List Int := [0, 8, 13, 21, 26, 34, 39, 47]

def dummyToken : Token := make_token 0

def dummyPlayer : Player := make_player .red

def getPlayer (g : Game) (i : Nat) : Player := g.players.getD i dummyPlayer

def getToken (g : Game) (i j : Nat) : Token := (getPlayer g i).tokens.getD j dummyToken

def setPlayer (g : Game) (i : Nat) (p : Player) : Game :=
  { g with players := g.players.set i p }

def modifyPlayer (g : Game) (i : Nat) (f : Player → Player) : Game :=
  setPlayer g i (f (getPlayer g i))

def modifyToken (g : Game) (i j : Nat) (f : Token → Token) : Game :=
  modifyPlayer g i (fun p => { p with tokens := p.tokens.set j (f (p.tokens.getD j dummyToken)) })

/-- `can_move` of app.py: home base needs a 6; in the stretch an exact count;
on the path compare the die with the raw distance to the lane entry. -/
def can_move (token : Token) (dice : Int) (color : Color) : Bool :=
  if token.finished then false
  else if token.pos = -1 then dice = 6
  else if token.stretch ≥ 0 then token.stretch + dice ≤ 5
  else
    let entry := ENTRY_BEFORE_HOME color
    let steps_to_entry := (entry - token.pos) % 52
    if dice ≤ steps_to_entry then true
    else dice - steps_to_entry - 1 ≤ 5

/-- Number of player `p`'s tokens sitting on track cell `pos`
(the `sum(1 for t in ...)` pattern of the source). -/
def countAt (p : Player) (pos : Int) : Nat :=
  p.tokens.countP (fun t => t.pos == pos && decide (t.stretch < 0) && !t.finished)

def is_blocked_aux : List Player → Nat → Nat → Int → Bool
  | [], _, _, _ => false
  | p :: rest, i, attacker, pos =>
    if i = attacker then is_blocked_aux rest (i + 1) attacker pos
    else if countAt p pos ≥ 2 then true
    else is_blocked_aux rest (i + 1) attacker pos

/-- `is_blocked` of app.py: true iff some OTHER player has 2+ tokens on `new_pos`. -/
def is_blocked (g : Game) (attacker_idx : Nat) (new_pos : Int) : Bool :=
  if new_pos < 0 then false
  else is_blocked_aux g.players 0 attacker_idx new_pos

/-- Send the first token occupying `pos` (on track, unfinished) back to base. -/
def sendBackFirst : List Token → Int → List Token
  | [], _ => []
  | t :: rest, pos =>
    if t.pos == pos && decide (t.stretch < 0) && !t.finished then
      { t with pos := -1, stretch := -1 } :: rest
    else t :: sendBackFirst rest pos

def check_capture_aux : List Player → Nat → Nat → Int → List Player × Option Color
  | [], _, _, _ => ([], none)
  | p :: rest, i, attacker, pos =>
    if i = attacker then
      let r := check_capture_aux rest (i + 1) attacker pos
      (p :: r.1, r.2)
    else if countAt p pos = 1 then
      ({ p with tokens := sendBackFirst p.tokens pos } :: rest, some p.color)
    else
      let r := check_capture_aux rest (i + 1) attacker pos
      (p :: r.1, r.2)

/-- `check_capture` of app.py: no capture off the track or on a safe square;
otherwise the first enemy player with exactly ONE token on the cell loses it
(a player with a 2+ stack there is skipped). -/
def check_capture (g : Game) (attacker_idx : Nat) (token : Token) :
    Game × Option Color :=
  if token.pos < 0 ∨ token.stretch ≥ 0 then (g, none)
  else if token.pos ∈ SAFE_SQUARES then (g, none)
  else
    let r := check_capture_aux g.players 0 attacker_idx token.pos
    ({ g with players := r.1 }, r.2)

/-- Landing step shared by base exit and track moves: run the capture check
and turn its result into an event list. -/
def landOnTrack (g : Game) (pIdx : Nat) (tok : Token) (c : Color) :
    Game × List Event :=
  let r := check_capture g pIdx tok
  match r.2 with
  | some v => (r.1, [Event.capture c v])
  | none => (r.1, [])

/-- Finishing bookkeeping: bump `finished_count`, emit `home`, and `win` at 4. -/
def finishToken (g : Game) (pIdx : Nat) (c : Color) : Game × List Event :=
  let g' := modifyPlayer g pIdx (fun p => { p with finished_count := p.finished_count + 1 })
  if (getPlayer g' pIdx).finished_count = 4 then (g', [Event.home c, Event.win c])
  else (g', [Event.home c])

/-- Case 1 of `apply_move`: bring a token out of the home base. -/
def exitBase (g : Game) (pIdx tIdx : Nat) (tok : Token) (color : Color) :
    Game × List Event :=
  let new_pos := START_IDX color
  if is_blocked g pIdx new_pos then (g, [Event.blocked color])
  else
    let tok' := { tok with pos := new_pos, stretch := -1 }
    landOnTrack (modifyToken g pIdx tIdx (fun _ => tok')) pIdx tok' color

/-- Case 2 of `apply_move`: advance inside the home stretch.  Finishing
happens exactly at index 5; overshoot leaves the state untouched (prevented
by `can_move`). -/
def laneAdvance (g : Game) (pIdx tIdx : Nat) (stretch dice : Int) (color : Color) :
    Game × List Event :=
  let ns := stretch + dice
  if ns = 5 then
    finishToken (modifyToken g pIdx tIdx (fun t => { t with stretch := 5, finished := true }))
      pIdx color
  else if ns < 5 then
    (modifyToken g pIdx tIdx (fun t => { t with stretch := ns }), [])
  else (g, [])

/-- Case 3 of `apply_move`: move along the outer path, possibly turning into
the home stretch.  Note: the raw distance, with NO zero-to-52 rewrite. -/
def pathMove (g : Game) (pIdx tIdx : Nat) (tok : Token) (dice : Int) (color : Color) :
    Game × List Event :=
  let steps_to_entry := (ENTRY_BEFORE_HOME color - tok.pos) % 52
  if dice ≤ steps_to_entry then
    let new_pos := (tok.pos + dice) % 52
    if is_blocked g pIdx new_pos then (g, [Event.blocked color])
    else
      let tok' := { tok with pos := new_pos }
      landOnTrack (modifyToken g pIdx tIdx (fun _ => tok')) pIdx tok' color
  else
    let steps_into_stretch := dice - steps_to_entry - 1
    let g := modifyToken g pIdx tIdx
      (fun t => { t with pos := -2, stretch := steps_into_stretch })
    if steps_into_stretch = 5 then
      finishToken (modifyToken g pIdx tIdx (fun t => { t with finished := true })) pIdx color
    else (g, [])

/-- `apply_move` of app.py.  Mirrors the three cases of the source:
base exit, home-stretch advance, outer-path move.  The source mutates
`player['last_moved_token']` FIRST, before any block check. -/
def apply_move (g : Game) (player_idx token_idx : Nat) : Game × List Event :=
  let tok := getToken g player_idx token_idx
  let color := (getPlayer g player_idx).color
  let g1 := modifyPlayer g player_idx (fun p => { p with last_moved_token := some token_idx })
  if tok.pos = -1 then exitBase g1 player_idx token_idx tok color
  else if tok.stretch ≥ 0 then laneAdvance g1 player_idx token_idx tok.stretch g.dice_value color
  else pathMove g1 player_idx token_idx tok g.dice_value color

/-- `check_triple_six` of app.py: update the streak from the current die and
report whether it reached 3. -/
def check_triple_six (g : Game) (player_idx : Nat) : Game × Bool :=
  let streak := g.six_streak player_idx
  let newStreak := if g.dice_value = 6 then streak + 1 else 0
  ({ g with six_streak := Function.update g.six_streak player_idx newStreak },
   newStreak ≥ 3)

/-- The state change of app.py's `next_turn` (broadcasts and CPU scheduling
are I/O and touch no session state).  On a triple six the last-moved token is
recalled whenever `pos >= 0 or stretch >= 0` — the source does NOT test the
`finished` flag here — the streak resets and the bonus is cancelled. -/
def next_turn (g : Game) (rolled_six : Bool) : Game :=
  if g.game_over then g
  else
    let g := { g with rolled := false }
    let r := check_triple_six g g.current_player
    let g := r.1
    let cur := g.current_player
    let g2 :=
      if r.2 then
        let cp := getPlayer g cur
        let g :=
          match cp.last_moved_token with
          | some li =>
            let lt := cp.tokens.getD li dummyToken
            if lt.pos ≥ 0 ∨ lt.stretch ≥ 0 then
              modifyToken g cur li (fun t => { t with pos := -1, stretch := -1 })
            else g
          | none => g
        { g with six_streak := Function.update g.six_streak cur 0 }
      else g
    let bonus := if r.2 then false else rolled_six
    if bonus then { g2 with extra_turn := true }
    else { g2 with extra_turn := false, current_player := (g2.current_player + 1) % 4 }

def movable (g : Game) (pIdx : Nat) : List Token :=
  let p := getPlayer g pIdx
  p.tokens.filter (fun t => can_move t g.dice_value p.color)

/-- `on_roll_dice` of app.py for one session, the rolled die injected.
Guards: game over, already rolled, out of turn.  With no movable token the
turn resolves immediately (a 6 still counts towards the bonus). -/
def on_roll_dice (g : Game) (pIdx : Nat) (val : Int) : Game :=
  if g.game_over ∨ g.rolled then g
  else if g.current_player ≠ pIdx then g
  else
    let g := { g with dice_value := val, rolled := true }
    if (movable g pIdx).isEmpty then next_turn g (val = 6)
    else g

/-- `on_move_token` of app.py for one session.  Guards, `can_move`
validation, then `apply_move`; a `win` event freezes the game, otherwise the
turn resolves with the bonus iff the die was a 6. -/
def on_move_token (g : Game) (pIdx token_id : Nat) : Game × List Event :=
  if g.game_over ∨ ¬g.rolled then (g, [])
  else if g.current_player ≠ pIdx then (g, [])
  else if ¬(token_id ≤ 3) then (g, [])
  else
    let cp := getPlayer g pIdx
    let tok := cp.tokens.getD token_id dummyToken
    if ¬can_move tok g.dice_value cp.color then (g, [])
    else
      let r := apply_move g pIdx token_id
      let g := r.1
      let dice_val := g.dice_value
      match r.2.find? Event.isWin with
      | some (Event.win c) => ({ g with game_over := true, winner := some c }, r.2)
      | _ => (next_turn g (dice_val = 6), r.2)

end App

namespace Server

structure Token where
  id : Nat
  pos : Int
  stretch : Int
  finished : Bool
deriving DecidableEq, Repr

def mkToken (tid : Nat) : Token :=
  { id := tid, pos := -1, stretch := -1, finished := false }

structure Player where
  color : Color
  tokens : List Token
  finished_count : Nat
deriving DecidableEq, Repr

def mkPlayer (c : Color) : Player :=
  { color := c
    tokens := [mkToken 0, mkToken 1, mkToken 2, mkToken 3]
    finished_count := 0 }

/-- The `GameRoom` session state of server.py. -/
structure Game where
  players : List Player
  current : Nat
  dice_value : Int
  rolled : Bool
  game_over : Bool
  winner : Option Color
deriving DecidableEq, Repr

def START_IDX : Color → Int
  | .red => 0 | .blue => 13 | .green => 26 | .yellow => 39

def HOME_ENTRY : Color → Int
  | .red => 51 | .blue => 11 | .green => 37 | .yellow => 24

def SAFE_IDX : List Int := [0, 8, 13, 21, 26, 34, 39, 47]

def dummyToken : Token := mkToken 0

def dummyPlayer : Player := mkPlayer .red

def getPlayer (g : Game) (i : Nat) : Player := g.players.getD i dummyPlayer

def setPlayer (g : Game) (i : Nat) (p : Player) : Game :=
  { g with players := g.players.set i p }

def modifyPlayer (g : Game) (i : Nat) (f : Player → Player) : Game :=
  setPlayer g i (f (getPlayer g i))

def modifyToken (g : Game) (i j : Nat) (f : Token → Token) : Game :=
  modifyPlayer g i (fun p => { p with tokens := p.tokens.set j (f (p.tokens.getD j dummyToken)) })

/-- `GameRoom.can_move` of server.py: a distance of 0 to the home entry is
reinterpreted as a full lap of 52 — unlike app.py. -/
def can_move (token : Token) (dice : Int) (color : Color) : Bool :=
  if token.finished then false
  else if token.pos = -1 then dice = 6
  else if token.stretch ≥ 0 then token.stretch + dice ≤ 5
  else
    let d0 := (HOME_ENTRY color - token.pos) % 52
    let dist_to_entry := if d0 = 0 then (52 : Int) else d0
    if dice ≤ dist_to_entry then true
    else dice - dist_to_entry - 1 ≤ 5

def isVictim (pos : Int) (t : Token) : Bool :=
  t.pos == pos && decide (t.stretch < 0) && !t.finished

/-- Send the first victim token on `pos` back to base. -/
def sendBackFirst : List Token → Int → List Token
  | [], _ => []
  | t :: rest, pos =>
    if isVictim pos t then { t with pos := -1, stretch := -1 } :: rest
    else t :: sendBackFirst rest pos

def check_capture_aux : List Player → Nat → Nat → Int → List Player × Option Color
  | [], _, _, _ => ([], none)
  | p :: rest, i, mover, pos =>
    if i = mover then
      let r := check_capture_aux rest (i + 1) mover pos
      (p :: r.1, r.2)
    else if p.tokens.any (isVictim pos) then
      ({ p with tokens := sendBackFirst p.tokens pos } :: rest, some p.color)
    else
      let r := check_capture_aux rest (i + 1) mover pos
      (p :: r.1, r.2)

/-- `GameRoom._check_capture` of server.py: no safe-square capture, but NO
block immunity — the first enemy token found on the cell is always sent back,
however many enemies share it. -/
def check_capture (g : Game) (mover_idx : Nat) (pos : Int) : Game × Option Color :=
  if pos ∈ SAFE_IDX then (g, none)
  else
    let r := check_capture_aux g.players 0 mover_idx pos
    ({ g with players := r.1 }, r.2)

/-- Find the index in the token list of the token whose `id` matches. -/
def tokenIdxOf (p : Player) (token_id : Nat) : Option Nat :=
  p.tokens.findIdx? (fun t => t.id == token_id)

/-- Capture resolution on landing, turned into an event list. -/
def captureEvents (g : Game) (pi : Nat) (pos : Int) (color : Color) :
    Game × List Event :=
  let r := check_capture g pi pos
  match r.2 with
  | some v => (r.1, [Event.capture color v])
  | none => (r.1, [])

/-- Base-exit case of `GameRoom.move_token`. -/
def moveFromBase (g : Game) (pi tIdx : Nat) (color : Color) : Game × List Event :=
  captureEvents (modifyToken g pi tIdx (fun t => { t with pos := START_IDX color }))
    pi (START_IDX color) color

/-- Home-stretch case of `GameRoom.move_token`: the token finishes only when
the NEW index reaches 6 (clamped to 6) — while `can_move` caps it at 5. -/
def moveInLane (g : Game) (pi tIdx : Nat) (stretch dice : Int) (color : Color) :
    Game × List Event :=
  let ns := stretch + dice
  if ns ≥ 6 then
    (modifyPlayer
      (modifyToken g pi tIdx (fun t => { t with stretch := 6, finished := true }))
      pi (fun q => { q with finished_count := q.finished_count + 1 }),
     [Event.home color])
  else
    (modifyToken g pi tIdx (fun t => { t with stretch := ns }), [])

/-- Outer-path case of `GameRoom.move_token`, with the zero-distance
reinterpreted as a full lap of 52. -/
def moveOnPath (g : Game) (pi tIdx : Nat) (pos dice : Int) (color : Color) :
    Game × List Event :=
  let d0 := (HOME_ENTRY color - pos) % 52
  let dist_to_entry := if d0 = 0 then (52 : Int) else d0
  if dice ≤ dist_to_entry then
    let np := (pos + dice) % 52
    captureEvents (modifyToken g pi tIdx (fun t => { t with pos := np })) pi np color
  else
    let extra := dice - dist_to_entry - 1
    if extra ≥ 6 then
      (modifyPlayer
        (modifyToken g pi tIdx
          (fun t => { t with pos := HOME_ENTRY color, stretch := 6, finished := true }))
        pi (fun q => { q with finished_count := q.finished_count + 1 }),
       [Event.home color])
    else
      (modifyToken g pi tIdx
        (fun t => { t with pos := HOME_ENTRY color, stretch := extra }), [])

/-- Post-move win check of `GameRoom.move_token`: `finished_count >= 4`
flips the room to game-over with a `win` event. -/
def finishCheck (g : Game) (pi : Nat) (color : Color) (events : List Event) :
    Game × List Event :=
  if (getPlayer g pi).finished_count ≥ 4 then
    ({ g with game_over := true, winner := some color }, events ++ [Event.win color])
  else (g, events)

/-- `GameRoom.move_token` of server.py.  Returns `(ok, state, events)`;
`rolled` is cleared after any executed move. -/
def move_token (g : Game) (player_idx token_id : Nat) :
    Bool × Game × List Event :=
  let p := getPlayer g player_idx
  match tokenIdxOf p token_id with
  | none => (false, g, [])
  | some tIdx =>
    let token := p.tokens.getD tIdx dummyToken
    if ¬can_move token g.dice_value p.color then (false, g, [])
    else
      let step1 : Game × List Event :=
        if token.pos = -1 then moveFromBase g player_idx tIdx p.color
        else if token.stretch ≥ 0 then
          moveInLane g player_idx tIdx token.stretch g.dice_value p.color
        else moveOnPath g player_idx tIdx token.pos g.dice_value p.color
      let r2 := finishCheck step1.1 player_idx p.color step1.2
      (true, { r2.1 with rolled := false }, r2.2)

/-- server.py `next_turn`: advance the seat unless a bonus was granted. -/
def next_turn (g : Game) (gave_bonus : Bool) : Game :=
  if g.game_over then g
  else
    let g := if ¬gave_bonus then { g with current := (g.current + 1) % 4 } else g
    { g with rolled := false }

def movable_tokens (g : Game) (player_idx : Nat) : List Token :=
  let p := getPlayer g player_idx
  p.tokens.filter (fun t => can_move t g.dice_value p.color)

/-- server.py `on_roll_dice` for one room, die injected.  The deferred
`next_turn` on a no-move roll runs in a timer and is modeled by `next_turn`
itself (which re-checks `game_over`). -/
def on_roll_dice (g : Game) (val : Int) : Game :=
  if g.game_over ∨ g.rolled then g
  else { g with dice_value := val, rolled := true }

/-- server.py `on_move_token` for one room (turn-ownership checks passed). -/
def on_move_token (g : Game) (token_id : Nat) : Game × List Event :=
  if g.game_over ∨ ¬g.rolled then (g, [])
  else
    let r := move_token g g.current token_id
    if r.1 then (r.2.1, r.2.2) else (g, [])

end Server

/-! ### Concrete session states used by counterexamples and witnesses -/

namespace App

/-- Total number of tokens sitting at base across a player list. -/
def atBase (ps : List Player) : Nat :=
  (ps.map (fun p => p.tokens.countP (fun t => t.pos == -1))).sum

/-- A fresh session as `create_room` builds it: four players in color order,
all tokens at base, seat 0 to act. -/
def g0 : Game :=
  { players := [make_player .red, make_player .blue, make_player .green, make_player .yellow]
    current_player := 0, dice_value := 0, rolled := false, game_over := false
    winner := none, six_streak := fun _ => 0, extra_turn := false }

/-- Red token 0 sits exactly on red's lane-entry cell 51, die shows 1. -/
def entryCellGame : Game :=
  { g0 with dice_value := 1, rolled := true
            players := (g0.players.set 0
              { make_player .red with
                  tokens := [⟨0, 51, -1, false⟩, make_token 1, make_token 2, make_token 3] }) }

/-- Red token 0 on cell 1, die 2; blue tokens 0 and 1 form a block on cell 3. -/
def blockedGame : Game :=
  { g0 with dice_value := 2, rolled := true
            players := [ { make_player .red with
                             tokens := [⟨0, 1, -1, false⟩, make_token 1, make_token 2, make_token 3] },
                         { make_player .blue with
                             tokens := [⟨0, 3, -1, false⟩, ⟨1, 3, -1, false⟩, make_token 2, make_token 3] },
                         make_player .green, make_player .yellow ] }

/-- Red tokens 1 and 2 stack on cell 5; red token 0 on cell 3, die 2. -/
def ownStackGame : Game :=
  { g0 with dice_value := 2, rolled := true
            players := [ { make_player .red with
                             tokens := [⟨0, 3, -1, false⟩, ⟨1, 5, -1, false⟩, ⟨2, 5, -1, false⟩, make_token 3] },
                         make_player .blue, make_player .green, make_player .yellow ] }

/-- Red's last-moved token 0 is Finished (lane index 5); red is one six away
from a triple six (`six_streak = 2`) and has just rolled the third 6. -/
def finishedRecallGame : Game :=
  { g0 with dice_value := 6, rolled := true
            six_streak := fun i => if i = 0 then 2 else 0
            players := [ { make_player .red with
                             tokens := [⟨0, -2, 5, true⟩, make_token 1, make_token 2, make_token 3],
                             finished_count := 1,
                             last_moved_token := some 0 },
                         make_player .blue, make_player .green, make_player .yellow ] }

/-- Red's last-moved token 0 is on track cell 5 (not finished); red has
`six_streak = 2` and has just rolled the third 6. -/
def tripleSixGame : Game :=
  { g0 with dice_value := 6, rolled := true
            six_streak := fun i => if i = 0 then 2 else 0
            players := [ { make_player .red with
                             tokens := [⟨0, 5, -1, false⟩, make_token 1, make_token 2, make_token 3],
                             last_moved_token := some 0 },
                         make_player .blue, make_player .green, make_player .yellow ] }

/-- Every red token is parked at lane index 0, so a 6 moves nothing. -/
def noMoveGame : Game :=
  { g0 with players := [ { make_player .red with
                             tokens := [⟨0, -2, 0, false⟩, ⟨1, -2, 0, false⟩,
                                        ⟨2, -2, 0, false⟩, ⟨3, -2, 0, false⟩] },
                         make_player .blue, make_player .green, make_player .yellow ] }

/-- A six rolled with a clean streak. -/
def bonusGame : Game := { g0 with dice_value := 6, rolled := true }

/-- A three rolled with a clean streak. -/
def threeGame : Game := { g0 with dice_value := 3, rolled := true }

/-- A finished session. -/
def overGame : Game := { g0 with game_over := true, winner := some .red }

/-- Session where seat 0 has rolled a 6 and token 0 is still at base. -/
def baseExitGame : Game := { g0 with dice_value := 6, rolled := true }

end App

namespace Server

/-- A fresh room as `GameRoom.__init__` builds it. -/
def g0 : Game :=
  { players := [mkPlayer .red, mkPlayer .blue, mkPlayer .green, mkPlayer .yellow]
    current := 0, dice_value := 0, rolled := false, game_over := false, winner := none }

/-- Red token 0 in the home stretch at index 3, die 2 ( 3 + 2 = 5 ). -/
def laneGame : Game :=
  { g0 with dice_value := 2, rolled := true
            players := (g0.players.set 0
              { mkPlayer .red with
                  tokens := [⟨0, -2, 3, false⟩, mkToken 1, mkToken 2, mkToken 3] }) }

/-- Red token 0 sits exactly on red's lane-entry cell 51, die 1. -/
def entryCellGame : Game :=
  { g0 with dice_value := 1, rolled := true
            players := (g0.players.set 0
              { mkPlayer .red with
                  tokens := [⟨0, 51, -1, false⟩, mkToken 1, mkToken 2, mkToken 3] }) }

/-- Red token 0 on cell 1, die 2; blue tokens 0 and 1 both occupy cell 3. -/
def stackCaptureGame : Game :=
  { g0 with dice_value := 2, rolled := true
            players := [ { mkPlayer .red with
                             tokens := [⟨0, 1, -1, false⟩, mkToken 1, mkToken 2, mkToken 3] },
                         { mkPlayer .blue with
                             tokens := [⟨0, 3, -1, false⟩, ⟨1, 3, -1, false⟩, mkToken 2, mkToken 3] },
                         mkPlayer .green, mkPlayer .yellow ] }

/-- A finished room. -/
def overGame : Game := { g0 with game_over := true, winner := some .red }

/-- Room where seat 0 has rolled a 6 and token 0 is still at base. -/
def baseExitGame : Game := { g0 with dice_value := 6, rolled := true }

end Server

/-! ### Basic list lemmas -/

theorem getD_set_self {α : Type} (l : List α) (i : Nat) (a d : α) (h : i < l.length) :
    (l.set i a)[i]?.getD d = a := by
  induction l generalizing i with
  | nil => simp at h
  | cons x xs ih =>
    cases i with
    | zero => simp
    | succ n => simpa using ih n (by simpa using h)

theorem getD_set_ne {α : Type} (l : List α) (i j : Nat) (a d : α) (h : i ≠ j) :
    (l.set i a)[j]?.getD d = l[j]?.getD d := by
  induction l generalizing i j with
  | nil => rfl
  | cons x xs ih =>
    cases i with
    | zero =>
      cases j with
      | zero => exact absurd rfl h
      | succ m => simp
    | succ n =>
      cases j with
      | zero => simp
      | succ m => simpa using ih n m (by omega)

/-! ### Sanity checks of the embedding against the end-to-end scenarios -/

example : App.can_move (App.make_token 0) 6 .red = true := by decide

example : App.can_move (App.make_token 0) 3 .red = false := by decide

example : App.can_move ⟨0, -2, 3, false⟩ 2 .red = true := by decide

example : App.can_move ⟨0, -2, 3, false⟩ 3 .red = false := by decide

example : App.can_move ⟨0, 49, -1, false⟩ 4 .red = true := by decide

/-! ### C8 — game over is terminal -/

/-- C8: once `game_over` is set, roll and move handlers of both variants
return the session unchanged and produce no events. -/
theorem c8_game_over_is_terminal
    (gA : App.Game) (pIdx val tid : Nat) (gS : Server.Game) (val2 tid2 : Nat)
    (hA : gA.game_over = true) (hS : gS.game_over = true) :
    App.on_roll_dice gA pIdx val = gA ∧
    App.on_move_token gA pIdx tid = (gA, []) ∧
    Server.on_roll_dice gS val2 = gS ∧
    Server.on_move_token gS tid2 = (gS, []) := by
  refine ⟨?_, ?_, ?_, ?_⟩ <;>
    simp [App.on_roll_dice, App.on_move_token, Server.on_roll_dice,
          Server.on_move_token, hA, hS]

theorem c8_game_over_is_terminal_witness :
    App.on_roll_dice App.overGame 0 4 = App.overGame ∧
    App.on_move_token App.overGame 0 0 = (App.overGame, []) ∧
    Server.on_roll_dice Server.overGame 4 = Server.overGame ∧
    Server.on_move_token Server.overGame 0 = (Server.overGame, []) :=
  c8_game_over_is_terminal App.overGame 0 4 0 Server.overGame 4 0 rfl rfl

/-! ### C6 — the triple-six recall also resets a Finished token -/

/-- C6: in `finishedRecallGame` red's last-moved token 0 is `Finished`
(lane index 5, `finished = true`).  The third consecutive 6 makes
app.py's `next_turn` reset its location to base anyway — the condition at
app.py line 348 checks `pos >= 0 or stretch >= 0` but never the `finished`
flag — so a `Finished` token's state changes again, contradicting the
invariant that `Finished` is immutable. -/
theorem c6_finished_token_recalled_on_triple_six :
    App.getToken App.finishedRecallGame 0 0 = ⟨0, -2, 5, true⟩ ∧
    App.next_turn App.finishedRecallGame true ≠ App.finishedRecallGame ∧
    App.getToken (App.next_turn App.finishedRecallGame true) 0 0 = ⟨0, -1, -1, true⟩ := by
  refine ⟨by decide, ?_, by decide⟩
  intro h
  have : App.getToken (App.next_turn App.finishedRecallGame true) 0 0 =
      App.getToken App.finishedRecallGame 0 0 := by rw [h]
  revert this
  decide

/-! ### C3 — the zero-distance full-lap convention -/

/-- C3 counterexample: red token 0 sits exactly on red's lane-entry cell 51
(`distanceToLaneEntry = 0`).  The claim says validator and executor both
reinterpret the distance as a full lap, so the token stays on the shared
track for any die.  In app.py, rolling a 1 is accepted by `can_move` and
`apply_move` puts the token INTO the home lane at index 0 (`pos = -2`,
`stretch = 0`): the convention is not applied there. -/
theorem c3_entry_cell_enters_lane_in_app :
    App.can_move ⟨0, 51, -1, false⟩ 1 .red = true ∧
    (App.getToken (App.apply_move App.entryCellGame 0 0).1 0 0).pos = -2 ∧
    (App.getToken (App.apply_move App.entryCellGame 0 0).1 0 0).stretch = 0 := by
  decide

/-! ### C4 — capture and block immunity -/

/-- C4 counterexample: in server.py two blue tokens stack on (non-safe)
cell 3; red lands there and `_check_capture` still sends the first blue
token back to base with a Capture event — 2+ enemy tokens are NOT immune
in that variant. -/
theorem c4_stack_captured_in_server :
    ((Server.getPlayer Server.stackCaptureGame 1).tokens.countP
        (fun t => t.pos == 3)) = 2 ∧
    (Server.move_token Server.stackCaptureGame 0 0).2.2 = [Event.capture .red .blue] ∧
    (Server.getPlayer (Server.move_token Server.stackCaptureGame 0 0).2.1 1).tokens.getD 0
        Server.dummyToken = ⟨0, -1, -1, false⟩ := by
  decide

/-! ### C5 — a Blocked move still records lastMovedTokenId -/

/-- C5 counterexample: red token 0 moving from cell 1 to cell 3 is rejected
because two blue tokens block cell 3.  Token positions are untouched, but
app.py records `last_moved_token` at the top of `apply_move`, BEFORE the
block check, so the rejected move changes it from `none` to `some 0`. -/
theorem c5_blocked_move_updates_last_moved :
    (App.apply_move App.blockedGame 0 0).2 = [Event.blocked .red] ∧
    (App.getToken (App.apply_move App.blockedGame 0 0).1 0 0).pos = 1 ∧
    (App.getPlayer App.blockedGame 0).last_moved_token = none ∧
    (App.getPlayer (App.apply_move App.blockedGame 0 0).1 0).last_moved_token = some 0 := by
  decide

/-! ### C9 — blocks are impassable only to enemy tokens -/

/-- C9 counterexample: red tokens 1 and 2 stack on cell 5; red token 0 still
moves onto cell 5 (`is_blocked` counts only ENEMY tokens), producing a
three-token own-color stack — the cell is not impassable to the stack's
own color. -/
theorem c9_own_color_enters_own_stack :
    App.countAt (App.getPlayer App.ownStackGame 0) 5 = 2 ∧
    App.is_blocked App.ownStackGame 0 5 = false ∧
    (App.apply_move App.ownStackGame 0 0).2 = [] ∧
    (App.getToken (App.apply_move App.ownStackGame 0 0).1 0 0).pos = 5 := by
  decide

/-! ### Shared record/list accessor lemmas -/

theorem listGetD_set_self {α : Type} (l : List α) (i : Nat) (a d : α) (h : i < l.length) :
    (l.set i a).getD i d = a := by
  induction l generalizing i with
  | nil => simp at h
  | cons x xs ih =>
    cases i with
    | zero => rfl
    | succ n => exact ih n (by simpa using h)

theorem listGetD_set_ne {α : Type} (l : List α) (i j : Nat) (a d : α) (h : i ≠ j) :
    (l.set i a).getD j d = l.getD j d := by
  induction l generalizing i j with
  | nil => rfl
  | cons x xs ih =>
    cases i with
    | zero =>
      cases j with
      | zero => exact absurd rfl h
      | succ m => rfl
    | succ n =>
      cases j with
      | zero => rfl
      | succ m => exact ih n m (by omega)

/-! ### C2 — exact lane finish: app.py finishes at 5, server.py never -/

/-- C2 (failing in server.py): whenever a home-stretch token may move at all
(`can_move` caps the new index at 5), `GameRoom.move_token` with
`i + die = 5` leaves the token UNFINISHED at index 5, changes no
`finished_count`, and emits no `Home` event — because its finish test is
`new index >= 6`, which `can_move` makes unreachable.  The claim (and
app.py, and spec scenario C) require `Finished` + `Home` + count increment
at exactly 5. -/
theorem c2_server_lane_finish_never_fires
    (g : Server.Game) (pi tid tIdx : Nat)
    (hpi : pi < g.players.length)
    (hfind : Server.tokenIdxOf (Server.getPlayer g pi) tid = some tIdx)
    (hti : tIdx < (Server.getPlayer g pi).tokens.length)
    (hfin : ((Server.getPlayer g pi).tokens.getD tIdx Server.dummyToken).finished = false)
    (hbase : ((Server.getPlayer g pi).tokens.getD tIdx Server.dummyToken).pos ≠ -1)
    (hlane : 0 ≤ ((Server.getPlayer g pi).tokens.getD tIdx Server.dummyToken).stretch)
    (hsum : ((Server.getPlayer g pi).tokens.getD tIdx Server.dummyToken).stretch + g.dice_value = 5) :
    (Server.move_token g pi tid).1 = true ∧
    ((Server.getPlayer (Server.move_token g pi tid).2.1 pi).tokens.getD tIdx Server.dummyToken).stretch = 5 ∧
    ((Server.getPlayer (Server.move_token g pi tid).2.1 pi).tokens.getD tIdx Server.dummyToken).finished = false ∧
    (Server.getPlayer (Server.move_token g pi tid).2.1 pi).finished_count =
      (Server.getPlayer g pi).finished_count ∧
    (Server.move_token g pi tid).2.2.all (fun e => !e.isHome) = true := by
  have hcm : Server.can_move ((Server.getPlayer g pi).tokens.getD tIdx Server.dummyToken)
      g.dice_value (Server.getPlayer g pi).color = true := by
    unfold Server.can_move
    rw [if_neg (by rw [hfin]; exact Bool.false_ne_true), if_neg hbase, if_pos hlane]
    simp only [decide_eq_true_eq]
    omega
  have hns : ¬ ((Server.getPlayer g pi).tokens.getD tIdx Server.dummyToken).stretch
      + g.dice_value ≥ 6 := by omega
  have hstep : Server.move_token g pi tid =
      (true,
       { (Server.finishCheck
            (Server.modifyToken g pi tIdx (fun t =>
              { t with stretch := ((Server.getPlayer g pi).tokens.getD tIdx Server.dummyToken).stretch
                                    + g.dice_value }))
            pi (Server.getPlayer g pi).color []).1 with rolled := false },
       (Server.finishCheck
          (Server.modifyToken g pi tIdx (fun t =>
            { t with stretch := ((Server.getPlayer g pi).tokens.getD tIdx Server.dummyToken).stretch
                                  + g.dice_value }))
          pi (Server.getPlayer g pi).color []).2) := by
    simp only [Server.move_token, hfind]
    rw [if_neg (not_not_intro hcm), if_neg hbase, if_pos hlane]
    unfold Server.moveInLane
    rw [if_neg hns]
  have hplayers :
      (Server.finishCheck
          (Server.modifyToken g pi tIdx (fun t =>
            { t with stretch := ((Server.getPlayer g pi).tokens.getD tIdx Server.dummyToken).stretch
                                  + g.dice_value }))
          pi (Server.getPlayer g pi).color []).1.players =
      (Server.modifyToken g pi tIdx (fun t =>
        { t with stretch := ((Server.getPlayer g pi).tokens.getD tIdx Server.dummyToken).stretch
                              + g.dice_value })).players := by
    unfold Server.finishCheck
    split <;> rfl
  have hgp : Server.getPlayer (Server.move_token g pi tid).2.1 pi =
      { Server.getPlayer g pi with
          tokens := (Server.getPlayer g pi).tokens.set tIdx
            { (Server.getPlayer g pi).tokens.getD tIdx Server.dummyToken with
                stretch := ((Server.getPlayer g pi).tokens.getD tIdx Server.dummyToken).stretch
                             + g.dice_value } } := by
    show ((Server.move_token g pi tid).2.1).players.getD pi Server.dummyPlayer = _
    rw [hstep]
    show (Server.finishCheck _ pi (Server.getPlayer g pi).color []).1.players.getD pi
        Server.dummyPlayer = _
    rw [hplayers]
    exact listGetD_set_self g.players pi _ Server.dummyPlayer hpi
  have hPtok :
      (((Server.getPlayer g pi).tokens.set tIdx
          { (Server.getPlayer g pi).tokens.getD tIdx Server.dummyToken with
              stretch := ((Server.getPlayer g pi).tokens.getD tIdx Server.dummyToken).stretch
                           + g.dice_value }).getD tIdx Server.dummyToken) =
      { (Server.getPlayer g pi).tokens.getD tIdx Server.dummyToken with
          stretch := ((Server.getPlayer g pi).tokens.getD tIdx Server.dummyToken).stretch
                       + g.dice_value } :=
    listGetD_set_self _ tIdx _ Server.dummyToken hti
  refine ⟨by rw [hstep], ?_, ?_, ?_, ?_⟩
  · rw [hgp]
    show (((Server.getPlayer g pi).tokens.set tIdx _).getD tIdx Server.dummyToken).stretch = 5
    rw [hPtok]
    exact hsum
  · rw [hgp]
    show (((Server.getPlayer g pi).tokens.set tIdx _).getD tIdx Server.dummyToken).finished = false
    rw [hPtok]
    exact hfin
  · rw [hgp]
  · rw [hstep]
    show (Server.finishCheck _ pi (Server.getPlayer g pi).color []).2.all _ = true
    unfold Server.finishCheck
    split <;> rfl

theorem c2_server_lane_finish_never_fires_witness :
    (Server.move_token Server.laneGame 0 0).1 = true ∧
    ((Server.getPlayer (Server.move_token Server.laneGame 0 0).2.1 0).tokens.getD 0
        Server.dummyToken).stretch = 5 ∧
    ((Server.getPlayer (Server.move_token Server.laneGame 0 0).2.1 0).tokens.getD 0
        Server.dummyToken).finished = false ∧
    (Server.getPlayer (Server.move_token Server.laneGame 0 0).2.1 0).finished_count =
      (Server.getPlayer Server.laneGame 0).finished_count ∧
    (Server.move_token Server.laneGame 0 0).2.2.all (fun e => !e.isHome) = true :=
  c2_server_lane_finish_never_fires Server.laneGame 0 0 0 (by decide) (by decide)
    (by decide) (by decide) (by decide) (by decide) (by decide)

theorem scap_aux_mover (ps : List Server.Player) : ∀ (i0 mover : Nat) (pos : Int) (j : Nat),
    i0 + j = mover →
    ((Server.check_capture_aux ps i0 mover pos).1.getD j Server.dummyPlayer) =
      ps.getD j Server.dummyPlayer := by
  induction ps with
  | nil => intro i0 mover pos j h; rfl
  | cons p rest ih =>
    intro i0 mover pos j h
    unfold Server.check_capture_aux
    by_cases h1 : i0 = mover
    · rw [if_pos h1]
      have hj : j = 0 := by omega
      subst hj; rfl
    · rw [if_neg h1]
      by_cases h2 : p.tokens.any (Server.isVictim pos) = true
      · rw [if_pos h2]
        cases j with
        | zero => omega
        | succ m => rfl
      · rw [if_neg h2]
        cases j with
        | zero => rfl
        | succ m => exact ih (i0 + 1) mover pos m (by omega)

theorem sget_check_capture_mover (g : Server.Game) (mover : Nat) (pos : Int) :
    Server.getPlayer (Server.check_capture g mover pos).1 mover = Server.getPlayer g mover := by
  unfold Server.check_capture
  split
  · rfl
  · exact scap_aux_mover g.players 0 mover pos mover (by omega)

theorem scaptureEvents_fst (g : Server.Game) (pi : Nat) (pos : Int) (c : Color) :
    (Server.captureEvents g pi pos c).1 = (Server.check_capture g pi pos).1 := by
  unfold Server.captureEvents
  generalize Server.check_capture g pi pos = r
  rcases r with ⟨g2, o⟩
  cases o <;> rfl

theorem sfinishCheck_players (g : Server.Game) (pi : Nat) (c : Color) (es : List Event) :
    (Server.finishCheck g pi c es).1.players = g.players := by
  unfold Server.finishCheck
  split <;> rfl

theorem shome_entry_nonneg (c : Color) : 0 ≤ Server.HOME_ENTRY c := by
  cases c <;> decide

theorem server_entry_cell_stays_on_track
    (g : Server.Game) (pi tid tIdx : Nat)
    (hpi : pi < g.players.length)
    (hfind : Server.tokenIdxOf (Server.getPlayer g pi) tid = some tIdx)
    (hti : tIdx < (Server.getPlayer g pi).tokens.length)
    (hfin : ((Server.getPlayer g pi).tokens.getD tIdx Server.dummyToken).finished = false)
    (hpos : ((Server.getPlayer g pi).tokens.getD tIdx Server.dummyToken).pos =
      Server.HOME_ENTRY (Server.getPlayer g pi).color)
    (hstr : ((Server.getPlayer g pi).tokens.getD tIdx Server.dummyToken).stretch = -1)
    (hd1 : 1 ≤ g.dice_value) (hd6 : g.dice_value ≤ 6) :
    Server.can_move ((Server.getPlayer g pi).tokens.getD tIdx Server.dummyToken)
      g.dice_value (Server.getPlayer g pi).color = true ∧
    (Server.move_token g pi tid).1 = true ∧
    ((Server.getPlayer (Server.move_token g pi tid).2.1 pi).tokens.getD tIdx
        Server.dummyToken).pos =
      (Server.HOME_ENTRY (Server.getPlayer g pi).color + g.dice_value) % 52 ∧
    ((Server.getPlayer (Server.move_token g pi tid).2.1 pi).tokens.getD tIdx
        Server.dummyToken).stretch = -1 := by
  have hnn : 0 ≤ Server.HOME_ENTRY (Server.getPlayer g pi).color :=
    shome_entry_nonneg _
  have hbase : ((Server.getPlayer g pi).tokens.getD tIdx Server.dummyToken).pos ≠ -1 := by
    omega
  have hnlane : ¬ (0 ≤ ((Server.getPlayer g pi).tokens.getD tIdx Server.dummyToken).stretch) := by
    omega
  have hd0 : (Server.HOME_ENTRY (Server.getPlayer g pi).color -
      ((Server.getPlayer g pi).tokens.getD tIdx Server.dummyToken).pos) % 52 = 0 := by
    rw [hpos]
    simp
  have hcm : Server.can_move ((Server.getPlayer g pi).tokens.getD tIdx Server.dummyToken)
      g.dice_value (Server.getPlayer g pi).color = true := by
    unfold Server.can_move
    rw [if_neg (by rw [hfin]; exact Bool.false_ne_true), if_neg hbase, if_neg hnlane]
    rw [hd0]
    simp only []
    rw [if_pos (trivial : True), if_pos (by omega : g.dice_value ≤ (52 : Int))]
  have hstep : Server.move_token g pi tid =
      (true,
       { (Server.finishCheck
            (Server.captureEvents
              (Server.modifyToken g pi tIdx (fun t =>
                { t with pos := (((Server.getPlayer g pi).tokens.getD tIdx
                    Server.dummyToken).pos + g.dice_value) % 52 }))
              pi ((((Server.getPlayer g pi).tokens.getD tIdx Server.dummyToken).pos
                    + g.dice_value) % 52)
              (Server.getPlayer g pi).color).1
            pi (Server.getPlayer g pi).color
            (Server.captureEvents
              (Server.modifyToken g pi tIdx (fun t =>
                { t with pos := (((Server.getPlayer g pi).tokens.getD tIdx
                    Server.dummyToken).pos + g.dice_value) % 52 }))
              pi ((((Server.getPlayer g pi).tokens.getD tIdx Server.dummyToken).pos
                    + g.dice_value) % 52)
              (Server.getPlayer g pi).color).2).1 with rolled := false },
       (Server.finishCheck
          (Server.captureEvents
            (Server.modifyToken g pi tIdx (fun t =>
              { t with pos := (((Server.getPlayer g pi).tokens.getD tIdx
                  Server.dummyToken).pos + g.dice_value) % 52 }))
            pi ((((Server.getPlayer g pi).tokens.getD tIdx Server.dummyToken).pos
                  + g.dice_value) % 52)
            (Server.getPlayer g pi).color).1
          pi (Server.getPlayer g pi).color
          (Server.captureEvents
            (Server.modifyToken g pi tIdx (fun t =>
              { t with pos := (((Server.getPlayer g pi).tokens.getD tIdx
                  Server.dummyToken).pos + g.dice_value) % 52 }))
            pi ((((Server.getPlayer g pi).tokens.getD tIdx Server.dummyToken).pos
                  + g.dice_value) % 52)
            (Server.getPlayer g pi).color).2).2) := by
    simp only [Server.move_token, hfind]
    rw [if_neg (not_not_intro hcm), if_neg hbase, if_neg hnlane]
    unfold Server.moveOnPath
    rw [hd0]
    simp only []
    rw [if_pos (trivial : True), if_pos (by omega : g.dice_value ≤ (52 : Int))]
  have hPtok : (((Server.getPlayer g pi).tokens.set tIdx
      { (Server.getPlayer g pi).tokens.getD tIdx Server.dummyToken with
          pos := (((Server.getPlayer g pi).tokens.getD tIdx Server.dummyToken).pos
                    + g.dice_value) % 52 }).getD tIdx Server.dummyToken) =
      { (Server.getPlayer g pi).tokens.getD tIdx Server.dummyToken with
          pos := (((Server.getPlayer g pi).tokens.getD tIdx Server.dummyToken).pos
                    + g.dice_value) % 52 } :=
    listGetD_set_self _ tIdx _ Server.dummyToken hti
  have hgp : Server.getPlayer (Server.move_token g pi tid).2.1 pi =
      { Server.getPlayer g pi with
          tokens := (Server.getPlayer g pi).tokens.set tIdx
            { (Server.getPlayer g pi).tokens.getD tIdx Server.dummyToken with
                pos := (((Server.getPlayer g pi).tokens.getD tIdx Server.dummyToken).pos
                          + g.dice_value) % 52 } } := by
    show ((Server.move_token g pi tid).2.1).players.getD pi Server.dummyPlayer = _
    rw [hstep]
    show (Server.finishCheck _ pi (Server.getPlayer g pi).color _).1.players.getD pi
        Server.dummyPlayer = _
    rw [sfinishCheck_players, scaptureEvents_fst]
    show Server.getPlayer (Server.check_capture
        (Server.modifyToken g pi tIdx (fun t =>
          { t with pos := (((Server.getPlayer g pi).tokens.getD tIdx
              Server.dummyToken).pos + g.dice_value) % 52 }))
        pi ((((Server.getPlayer g pi).tokens.getD tIdx Server.dummyToken).pos
              + g.dice_value) % 52)).1 pi = _
    rw [sget_check_capture_mover]
    exact listGetD_set_self g.players pi _ Server.dummyPlayer hpi
  refine ⟨hcm, by rw [hstep], ?_, ?_⟩
  · rw [hgp]
    show (((Server.getPlayer g pi).tokens.set tIdx
        { (Server.getPlayer g pi).tokens.getD tIdx Server.dummyToken with
            pos := (((Server.getPlayer g pi).tokens.getD tIdx Server.dummyToken).pos
                      + g.dice_value) % 52 }).getD tIdx Server.dummyToken).pos =
      (Server.HOME_ENTRY (Server.getPlayer g pi).color + g.dice_value) % 52
    rw [hPtok, hpos]
  · rw [hgp]
    show (((Server.getPlayer g pi).tokens.set tIdx
        { (Server.getPlayer g pi).tokens.getD tIdx Server.dummyToken with
            pos := (((Server.getPlayer g pi).tokens.getD tIdx Server.dummyToken).pos
                      + g.dice_value) % 52 }).getD tIdx Server.dummyToken).stretch = -1
    rw [hPtok]
    exact hstr

theorem aget_modifyPlayer_self (g : App.Game) (i : Nat) (f : App.Player → App.Player)
    (h : i < g.players.length) :
    App.getPlayer (App.modifyPlayer g i f) i = f (App.getPlayer g i) :=
  listGetD_set_self g.players i _ App.dummyPlayer h

theorem aget_modifyPlayer_ne (g : App.Game) (i k : Nat) (f : App.Player → App.Player)
    (h : i ≠ k) :
    App.getPlayer (App.modifyPlayer g i f) k = App.getPlayer g k :=
  listGetD_set_ne g.players i k _ App.dummyPlayer h

theorem aget_modifyToken_self (g : App.Game) (i j : Nat) (f : App.Token → App.Token)
    (h : i < g.players.length) :
    App.getPlayer (App.modifyToken g i j f) i =
      { App.getPlayer g i with
          tokens := (App.getPlayer g i).tokens.set j
            (f ((App.getPlayer g i).tokens.getD j App.dummyToken)) } :=
  listGetD_set_self g.players i _ App.dummyPlayer h

theorem agetToken_modifyToken_self (g : App.Game) (i j : Nat) (f : App.Token → App.Token)
    (hi : i < g.players.length) (hj : j < (App.getPlayer g i).tokens.length) :
    App.getToken (App.modifyToken g i j f) i j = f (App.getToken g i j) := by
  unfold App.getToken
  rw [aget_modifyToken_self g i j f hi]
  exact listGetD_set_self _ j _ App.dummyToken hj

theorem alen_modifyPlayer (g : App.Game) (i : Nat) (f : App.Player → App.Player) :
    (App.modifyPlayer g i f).players.length = g.players.length := by
  simp [App.modifyPlayer, App.setPlayer]

theorem alen_modifyToken (g : App.Game) (i j : Nat) (f : App.Token → App.Token) :
    (App.modifyToken g i j f).players.length = g.players.length :=
  alen_modifyPlayer g i _

theorem atoklen_modifyToken_self (g : App.Game) (i j : Nat) (f : App.Token → App.Token)
    (hi : i < g.players.length) :
    (App.getPlayer (App.modifyToken g i j f) i).tokens.length =
      (App.getPlayer g i).tokens.length := by
  rw [aget_modifyToken_self g i j f hi]
  simp

theorem afinishToken_fst (g : App.Game) (pIdx : Nat) (c : Color) :
    (App.finishToken g pIdx c).1 =
      App.modifyPlayer g pIdx (fun p => { p with finished_count := p.finished_count + 1 }) := by
  unfold App.finishToken
  simp only []
  split <;> rfl

theorem aentry_nonneg (c : Color) : 0 ≤ App.ENTRY_BEFORE_HOME c := by
  cases c <;> decide

theorem app_entry_cell_enters_lane
    (g : App.Game) (pa ta : Nat)
    (hpa : pa < g.players.length)
    (hta : ta < (App.getPlayer g pa).tokens.length)
    (hfin : (App.getToken g pa ta).finished = false)
    (hpos : (App.getToken g pa ta).pos = App.ENTRY_BEFORE_HOME (App.getPlayer g pa).color)
    (hstr : (App.getToken g pa ta).stretch = -1)
    (hd1 : 1 ≤ g.dice_value) (hd6 : g.dice_value ≤ 6) :
    App.can_move (App.getToken g pa ta) g.dice_value (App.getPlayer g pa).color = true ∧
    (App.getToken (App.apply_move g pa ta).1 pa ta).pos = -2 ∧
    (App.getToken (App.apply_move g pa ta).1 pa ta).stretch = g.dice_value - 1 := by
  have hnn : 0 ≤ App.ENTRY_BEFORE_HOME (App.getPlayer g pa).color := aentry_nonneg _
  have hbase : (App.getToken g pa ta).pos ≠ -1 := by omega
  have hnlane : ¬ (0 ≤ (App.getToken g pa ta).stretch) := by omega
  have hnd : ¬ (g.dice_value ≤ (0 : Int)) := by omega
  have hd0 : (App.ENTRY_BEFORE_HOME (App.getPlayer g pa).color -
      (App.getToken g pa ta).pos) % 52 = 0 := by
    rw [hpos]; simp
  have hcm : App.can_move (App.getToken g pa ta) g.dice_value (App.getPlayer g pa).color
      = true := by
    unfold App.can_move
    rw [if_neg (by rw [hfin]; exact Bool.false_ne_true), if_neg hbase, if_neg hnlane]
    simp only []
    rw [hd0, if_neg hnd]
    simp only [decide_eq_true_eq]
    omega
  have hb1 : pa < (App.modifyPlayer g pa
      (fun p => { p with last_moved_token := some ta })).players.length := by
    rw [alen_modifyPlayer]; exact hpa
  have hb2 : ta < (App.getPlayer (App.modifyPlayer g pa
      (fun p => { p with last_moved_token := some ta })) pa).tokens.length := by
    rw [aget_modifyPlayer_self g pa _ hpa]; exact hta
  have htokG1 : App.getToken (App.modifyPlayer g pa
      (fun p => { p with last_moved_token := some ta })) pa ta = App.getToken g pa ta := by
    unfold App.getToken
    rw [aget_modifyPlayer_self g pa _ hpa]
  refine ⟨hcm, ?_⟩
  by_cases h5 : g.dice_value - 0 - 1 = (5 : Int)
  · have hstep : App.apply_move g pa ta =
        App.finishToken
          (App.modifyToken
            (App.modifyToken
              (App.modifyPlayer g pa (fun p => { p with last_moved_token := some ta }))
              pa ta (fun t => { t with pos := -2, stretch := g.dice_value - 0 - 1 }))
            pa ta (fun t => { t with finished := true }))
          pa (App.getPlayer g pa).color := by
      simp only [App.apply_move]
      rw [if_neg hbase, if_neg hnlane]
      unfold App.pathMove
      simp only []
      rw [hd0, if_neg hnd, if_pos h5]
    have hb3 : pa < (App.modifyToken
        (App.modifyPlayer g pa (fun p => { p with last_moved_token := some ta }))
        pa ta (fun t => { t with pos := -2, stretch := g.dice_value - 0 - 1 })).players.length := by
      rw [alen_modifyToken, alen_modifyPlayer]; exact hpa
    have hb4 : ta < (App.getPlayer (App.modifyToken
        (App.modifyPlayer g pa (fun p => { p with last_moved_token := some ta }))
        pa ta (fun t => { t with pos := -2, stretch := g.dice_value - 0 - 1 })) pa).tokens.length := by
      rw [atoklen_modifyToken_self _ pa ta _ hb1]
      exact hb2
    have hb5 : pa < (App.modifyToken
        (App.modifyToken
          (App.modifyPlayer g pa (fun p => { p with last_moved_token := some ta }))
          pa ta (fun t => { t with pos := -2, stretch := g.dice_value - 0 - 1 }))
        pa ta (fun t => { t with finished := true })).players.length := by
      rw [alen_modifyToken, alen_modifyToken, alen_modifyPlayer]; exact hpa
    have hfinal : App.getToken (App.apply_move g pa ta).1 pa ta =
        { App.getToken g pa ta with
            pos := -2
            stretch := g.dice_value - 0 - 1
            finished := true } := by
      rw [hstep, afinishToken_fst]
      have hgt : App.getToken (App.modifyPlayer
          (App.modifyToken
            (App.modifyToken
              (App.modifyPlayer g pa (fun p => { p with last_moved_token := some ta }))
              pa ta (fun t => { t with pos := -2, stretch := g.dice_value - 0 - 1 }))
            pa ta (fun t => { t with finished := true }))
          pa (fun p => { p with finished_count := p.finished_count + 1 })) pa ta =
          App.getToken
            (App.modifyToken
              (App.modifyToken
                (App.modifyPlayer g pa (fun p => { p with last_moved_token := some ta }))
                pa ta (fun t => { t with pos := -2, stretch := g.dice_value - 0 - 1 }))
              pa ta (fun t => { t with finished := true })) pa ta := by
        unfold App.getToken
        rw [aget_modifyPlayer_self _ pa _ hb5]
      rw [hgt, agetToken_modifyToken_self _ pa ta _ hb3 hb4,
          agetToken_modifyToken_self _ pa ta _ hb1 hb2, htokG1]
    rw [hfinal]
    refine ⟨rfl, ?_⟩
    show g.dice_value - 0 - 1 = g.dice_value - 1
    omega
  · have hstep : App.apply_move g pa ta =
        (App.modifyToken
          (App.modifyPlayer g pa (fun p => { p with last_moved_token := some ta }))
          pa ta (fun t => { t with pos := -2, stretch := g.dice_value - 0 - 1 }), []) := by
      simp only [App.apply_move]
      rw [if_neg hbase, if_neg hnlane]
      unfold App.pathMove
      simp only []
      rw [hd0, if_neg hnd, if_neg h5]
    have hfinal : App.getToken (App.apply_move g pa ta).1 pa ta =
        { App.getToken g pa ta with pos := -2, stretch := g.dice_value - 0 - 1 } := by
      rw [hstep]
      show App.getToken (App.modifyToken _ pa ta _) pa ta = _
      rw [agetToken_modifyToken_self _ pa ta _ hb1 hb2, htokG1]
    rw [hfinal]
    refine ⟨rfl, ?_⟩
    show g.dice_value - 0 - 1 = g.dice_value - 1
    omega


/-- C3 amended: the zero-distance full-lap convention holds in server.py
only.  Server side: a token exactly on its lane-entry cell (distance 0,
reinterpreted as 52) passes `can_move` for any die 1..6 and the executor
keeps it on the shared track, `die` cells forward.  App side: app.py keeps
the raw distance 0 in validator and executor, so the same token instead
enters the home lane at index `die - 1` on that roll. -/
theorem c3_full_lap_convention_server_only
    (g : Server.Game) (pi tid tIdx : Nat)
    (hpi : pi < g.players.length)
    (hfind : Server.tokenIdxOf (Server.getPlayer g pi) tid = some tIdx)
    (hti : tIdx < (Server.getPlayer g pi).tokens.length)
    (hfin : ((Server.getPlayer g pi).tokens.getD tIdx Server.dummyToken).finished = false)
    (hpos : ((Server.getPlayer g pi).tokens.getD tIdx Server.dummyToken).pos =
      Server.HOME_ENTRY (Server.getPlayer g pi).color)
    (hstr : ((Server.getPlayer g pi).tokens.getD tIdx Server.dummyToken).stretch = -1)
    (hd1 : 1 ≤ g.dice_value) (hd6 : g.dice_value ≤ 6)
    (gA : App.Game) (pa ta : Nat)
    (hpa : pa < gA.players.length)
    (hta : ta < (App.getPlayer gA pa).tokens.length)
    (hfinA : (App.getToken gA pa ta).finished = false)
    (hposA : (App.getToken gA pa ta).pos = App.ENTRY_BEFORE_HOME (App.getPlayer gA pa).color)
    (hstrA : (App.getToken gA pa ta).stretch = -1)
    (hd1A : 1 ≤ gA.dice_value) (hd6A : gA.dice_value ≤ 6) :
    (Server.can_move ((Server.getPlayer g pi).tokens.getD tIdx Server.dummyToken)
        g.dice_value (Server.getPlayer g pi).color = true ∧
     (Server.move_token g pi tid).1 = true ∧
     ((Server.getPlayer (Server.move_token g pi tid).2.1 pi).tokens.getD tIdx
         Server.dummyToken).pos =
       (Server.HOME_ENTRY (Server.getPlayer g pi).color + g.dice_value) % 52 ∧
     ((Server.getPlayer (Server.move_token g pi tid).2.1 pi).tokens.getD tIdx
         Server.dummyToken).stretch = -1) ∧
    (App.can_move (App.getToken gA pa ta) gA.dice_value (App.getPlayer gA pa).color = true ∧
     (App.getToken (App.apply_move gA pa ta).1 pa ta).pos = -2 ∧
     (App.getToken (App.apply_move gA pa ta).1 pa ta).stretch = gA.dice_value - 1) :=
  ⟨server_entry_cell_stays_on_track g pi tid tIdx hpi hfind hti hfin hpos hstr hd1 hd6,
   app_entry_cell_enters_lane gA pa ta hpa hta hfinA hposA hstrA hd1A hd6A⟩

theorem c3_full_lap_convention_server_only_witness :
    (Server.can_move ((Server.getPlayer Server.entryCellGame 0).tokens.getD 0 Server.dummyToken)
        Server.entryCellGame.dice_value (Server.getPlayer Server.entryCellGame 0).color = true ∧
     (Server.move_token Server.entryCellGame 0 0).1 = true ∧
     ((Server.getPlayer (Server.move_token Server.entryCellGame 0 0).2.1 0).tokens.getD 0
         Server.dummyToken).pos =
       (Server.HOME_ENTRY (Server.getPlayer Server.entryCellGame 0).color
          + Server.entryCellGame.dice_value) % 52 ∧
     ((Server.getPlayer (Server.move_token Server.entryCellGame 0 0).2.1 0).tokens.getD 0
         Server.dummyToken).stretch = -1) ∧
    (App.can_move (App.getToken App.entryCellGame 0 0) App.entryCellGame.dice_value
        (App.getPlayer App.entryCellGame 0).color = true ∧
     (App.getToken (App.apply_move App.entryCellGame 0 0).1 0 0).pos = -2 ∧
     (App.getToken (App.apply_move App.entryCellGame 0 0).1 0 0).stretch =
       App.entryCellGame.dice_value - 1) :=
  c3_full_lap_convention_server_only Server.entryCellGame 0 0 0 (by decide) (by decide)
    (by decide) (by decide) (by decide) (by decide) (by decide) (by decide)
    App.entryCellGame 0 0 (by decide) (by decide) (by decide) (by decide) (by decide)
    (by decide) (by decide)

theorem acountAt_tokens_eq (p q : App.Player) (pos : Int) (h : p.tokens = q.tokens) :
    App.countAt p pos = App.countAt q pos := by
  simp [App.countAt, h]

theorem is_blocked_aux_congr {ps qs : List App.Player}
    (h : List.Forall₂ (fun p q => p.tokens = q.tokens) ps qs) :
    ∀ (i a : Nat) (pos : Int), App.is_blocked_aux ps i a pos = App.is_blocked_aux qs i a pos := by
  induction h with
  | nil => intro i a pos; rfl
  | cons hpq hrest ih =>
    rename_i p q l₁ l₂
    intro i a pos
    unfold App.is_blocked_aux
    rw [acountAt_tokens_eq p q pos hpq]
    by_cases h1 : i = a
    · rw [if_pos h1, if_pos h1]
      exact ih (i + 1) a pos
    · rw [if_neg h1, if_neg h1]
      by_cases h2 : 2 ≤ App.countAt q pos
      · rw [if_pos h2, if_pos h2]
      · rw [if_neg h2, if_neg h2]
        exact ih (i + 1) a pos

theorem forall₂_tokens_refl (ps : List App.Player) :
    List.Forall₂ (fun p q => p.tokens = q.tokens) ps ps :=
  List.forall₂_same.mpr (fun _ _ => rfl)

theorem forall₂_tokens_set (ps : List App.Player) (i : Nat) (p' : App.Player)
    (h : p'.tokens = (ps.getD i App.dummyPlayer).tokens) :
    List.Forall₂ (fun p q => p.tokens = q.tokens) (ps.set i p') ps := by
  induction ps generalizing i with
  | nil => exact List.Forall₂.nil
  | cons x xs ih =>
    cases i with
    | zero => exact List.Forall₂.cons h (forall₂_tokens_refl xs)
    | succ n => exact List.Forall₂.cons rfl (ih n h)

theorem is_blocked_modifyLast (g : App.Game) (i a : Nat) (v : Option Nat) (pos : Int) :
    App.is_blocked (App.modifyPlayer g i (fun p => { p with last_moved_token := v })) a pos =
      App.is_blocked g a pos := by
  unfold App.is_blocked
  by_cases hp : pos < 0
  · rw [if_pos hp, if_pos hp]
  · rw [if_neg hp, if_neg hp]
    exact is_blocked_aux_congr
      (forall₂_tokens_set g.players i
        { App.getPlayer g i with last_moved_token := v } rfl) 0 a pos

theorem apply_move_blocked (g : App.Game) (pIdx tIdx : Nat)
    (hOR : ((App.getToken g pIdx tIdx).pos = -1 ∧
            App.is_blocked g pIdx (App.START_IDX (App.getPlayer g pIdx).color) = true) ∨
           (0 ≤ (App.getToken g pIdx tIdx).pos ∧ (App.getToken g pIdx tIdx).stretch < 0 ∧
            g.dice_value ≤ (App.ENTRY_BEFORE_HOME (App.getPlayer g pIdx).color -
              (App.getToken g pIdx tIdx).pos) % 52 ∧
            App.is_blocked g pIdx (((App.getToken g pIdx tIdx).pos + g.dice_value) % 52)
              = true)) :
    App.apply_move g pIdx tIdx =
      (App.modifyPlayer g pIdx (fun p => { p with last_moved_token := some tIdx }),
       [Event.blocked (App.getPlayer g pIdx).color]) := by
  rcases hOR with ⟨hb, hblk⟩ | ⟨hp0, hs0, hdle, hblk⟩
  · simp only [App.apply_move]
    rw [if_pos hb]
    unfold App.exitBase
    simp only []
    rw [is_blocked_modifyLast, if_pos hblk]
  · have hbase : ¬ ((App.getToken g pIdx tIdx).pos = -1) := by omega
    have hnlane : ¬ (0 ≤ (App.getToken g pIdx tIdx).stretch) := by omega
    simp only [App.apply_move]
    rw [if_neg hbase, if_neg hnlane]
    unfold App.pathMove
    simp only []
    rw [if_pos hdle, is_blocked_modifyLast, if_pos hblk]

theorem map_set_eq {α β : Type} (l : List α) (i : Nat) (a : α) (f : α → β) (d : α)
    (h : f a = f (l.getD i d)) : (l.set i a).map f = l.map f := by
  induction l generalizing i with
  | nil => rfl
  | cons x xs ih =>
    cases i with
    | zero => simp only [List.set, List.map]; rw [h]; rfl
    | succ n => simp only [List.set, List.map]; rw [ih n h]

theorem is_blocked_aux_of (ps : List App.Player) : ∀ (i0 a : Nat) (pos : Int) (j : Nat),
    j < ps.length → i0 + j ≠ a → 2 ≤ App.countAt (ps.getD j App.dummyPlayer) pos →
    App.is_blocked_aux ps i0 a pos = true := by
  induction ps with
  | nil => intro i0 a pos j hj; simp at hj
  | cons p rest ih =>
    intro i0 a pos j hj hne hcnt
    unfold App.is_blocked_aux
    by_cases h1 : i0 = a
    · rw [if_pos h1]
      cases j with
      | zero => omega
      | succ m => exact ih (i0 + 1) a pos m (by simpa using hj) (by omega) hcnt
    · rw [if_neg h1]
      by_cases h2 : 2 ≤ App.countAt p pos
      · rw [if_pos h2]
      · rw [if_neg h2]
        cases j with
        | zero => exact absurd hcnt h2
        | succ m => exact ih (i0 + 1) a pos m (by simpa using hj) (by omega) hcnt

theorem is_blocked_aux_none (ps : List App.Player) : ∀ (i0 a : Nat) (pos : Int),
    (∀ j, j < ps.length → i0 + j ≠ a → App.countAt (ps.getD j App.dummyPlayer) pos < 2) →
    App.is_blocked_aux ps i0 a pos = false := by
  induction ps with
  | nil => intro i0 a pos h; rfl
  | cons p rest ih =>
    intro i0 a pos h
    unfold App.is_blocked_aux
    by_cases h1 : i0 = a
    · rw [if_pos h1]
      exact ih (i0 + 1) a pos (fun j hj hne => h (j + 1) (by simpa using hj) (by omega))
    · rw [if_neg h1]
      have hp : App.countAt p pos < 2 := h 0 (by simp) (by omega)
      rw [if_neg (show ¬ 2 ≤ App.countAt p pos by omega)]
      exact ih (i0 + 1) a pos (fun j hj hne => h (j + 1) (by simpa using hj) (by omega))

/-- C5 amended: a Blocked rejection leaves every token location, every
finished count and every session field unchanged, and the event list is
exactly `[Blocked]` — but app.py records `last_moved_token := tokenId`
unconditionally at the top of `apply_move`, before the block check, so the
rejected move does update it. -/
theorem c5_blocked_rejection_updates_only_last_moved
    (g : App.Game) (pIdx tIdx : Nat)
    (hpi : pIdx < g.players.length)
    (hOR : ((App.getToken g pIdx tIdx).pos = -1 ∧
            App.is_blocked g pIdx (App.START_IDX (App.getPlayer g pIdx).color) = true) ∨
           (0 ≤ (App.getToken g pIdx tIdx).pos ∧ (App.getToken g pIdx tIdx).stretch < 0 ∧
            g.dice_value ≤ (App.ENTRY_BEFORE_HOME (App.getPlayer g pIdx).color -
              (App.getToken g pIdx tIdx).pos) % 52 ∧
            App.is_blocked g pIdx (((App.getToken g pIdx tIdx).pos + g.dice_value) % 52)
              = true)) :
    (App.apply_move g pIdx tIdx).2 = [Event.blocked (App.getPlayer g pIdx).color] ∧
    (App.apply_move g pIdx tIdx).1.players.map App.Player.tokens =
      g.players.map App.Player.tokens ∧
    (App.apply_move g pIdx tIdx).1.players.map App.Player.finished_count =
      g.players.map App.Player.finished_count ∧
    (App.apply_move g pIdx tIdx).1.current_player = g.current_player ∧
    (App.apply_move g pIdx tIdx).1.dice_value = g.dice_value ∧
    (App.apply_move g pIdx tIdx).1.rolled = g.rolled ∧
    (App.apply_move g pIdx tIdx).1.game_over = g.game_over ∧
    (App.apply_move g pIdx tIdx).1.winner = g.winner ∧
    (App.apply_move g pIdx tIdx).1.six_streak = g.six_streak ∧
    (App.apply_move g pIdx tIdx).1.extra_turn = g.extra_turn ∧
    (App.getPlayer (App.apply_move g pIdx tIdx).1 pIdx).last_moved_token = some tIdx := by
  have hb := apply_move_blocked g pIdx tIdx hOR
  rw [hb]
  refine ⟨rfl, ?_, ?_, rfl, rfl, rfl, rfl, rfl, rfl, rfl, ?_⟩
  · exact map_set_eq g.players pIdx _ App.Player.tokens App.dummyPlayer rfl
  · exact map_set_eq g.players pIdx _ App.Player.finished_count App.dummyPlayer rfl
  · rw [aget_modifyPlayer_self g pIdx _ hpi]

/-- C9 amended: a 2+ stack bars entry by ENEMY seats only.  Part 1: an
enemy seat with a 2+ stack on the destination makes `is_blocked` true.
Part 2: if no ENEMY seat has 2 tokens on the cell, `is_blocked` is false —
regardless of the moving seat's own tokens there, so own-color entry is
never blocked.  Parts 3-4: a move onto an enemy-blocked cell is rejected
with a `Blocked` event and no token location changes. -/
theorem c9_blocks_bar_enemy_entry_only
    (g : App.Game) (a i : Nat) (pos : Int)
    (h0 : ¬ (pos < 0)) (hi : i < g.players.length) (hne : i ≠ a)
    (hcnt : 2 ≤ App.countAt (App.getPlayer g i) pos)
    (g2 : App.Game) (a2 : Nat) (pos2 : Int)
    (hall : ∀ j, j < g2.players.length → j ≠ a2 → App.countAt (App.getPlayer g2 j) pos2 < 2)
    (g3 : App.Game) (pIdx tIdx : Nat)
    (hOR : (0 ≤ (App.getToken g3 pIdx tIdx).pos ∧ (App.getToken g3 pIdx tIdx).stretch < 0 ∧
            g3.dice_value ≤ (App.ENTRY_BEFORE_HOME (App.getPlayer g3 pIdx).color -
              (App.getToken g3 pIdx tIdx).pos) % 52 ∧
            App.is_blocked g3 pIdx (((App.getToken g3 pIdx tIdx).pos + g3.dice_value) % 52)
              = true)) :
    App.is_blocked g a pos = true ∧
    App.is_blocked g2 a2 pos2 = false ∧
    (App.apply_move g3 pIdx tIdx).2 = [Event.blocked (App.getPlayer g3 pIdx).color] ∧
    (App.apply_move g3 pIdx tIdx).1.players.map App.Player.tokens =
      g3.players.map App.Player.tokens := by
  refine ⟨?_, ?_, ?_, ?_⟩
  · unfold App.is_blocked
    rw [if_neg h0]
    exact is_blocked_aux_of g.players 0 a pos i hi (by omega) hcnt
  · unfold App.is_blocked
    by_cases hp : pos2 < 0
    · rw [if_pos hp]
    · rw [if_neg hp]
      exact is_blocked_aux_none g2.players 0 a2 pos2
        (fun j hj hne2 => hall j hj (by omega))
  · rw [apply_move_blocked g3 pIdx tIdx (Or.inr hOR)]
  · rw [apply_move_blocked g3 pIdx tIdx (Or.inr hOR)]
    exact map_set_eq g3.players pIdx _ App.Player.tokens App.dummyPlayer rfl

theorem c5_blocked_rejection_updates_only_last_moved_witness :
    (App.apply_move App.blockedGame 0 0).2 =
      [Event.blocked (App.getPlayer App.blockedGame 0).color] ∧
    (App.apply_move App.blockedGame 0 0).1.players.map App.Player.tokens =
      App.blockedGame.players.map App.Player.tokens ∧
    (App.apply_move App.blockedGame 0 0).1.players.map App.Player.finished_count =
      App.blockedGame.players.map App.Player.finished_count ∧
    (App.apply_move App.blockedGame 0 0).1.current_player = App.blockedGame.current_player ∧
    (App.apply_move App.blockedGame 0 0).1.dice_value = App.blockedGame.dice_value ∧
    (App.apply_move App.blockedGame 0 0).1.rolled = App.blockedGame.rolled ∧
    (App.apply_move App.blockedGame 0 0).1.game_over = App.blockedGame.game_over ∧
    (App.apply_move App.blockedGame 0 0).1.winner = App.blockedGame.winner ∧
    (App.apply_move App.blockedGame 0 0).1.six_streak = App.blockedGame.six_streak ∧
    (App.apply_move App.blockedGame 0 0).1.extra_turn = App.blockedGame.extra_turn ∧
    (App.getPlayer (App.apply_move App.blockedGame 0 0).1 0).last_moved_token = some 0 :=
  c5_blocked_rejection_updates_only_last_moved App.blockedGame 0 0 (by decide)
    (Or.inr ⟨by decide, by decide, by decide, by decide⟩)

theorem c9_blocks_bar_enemy_entry_only_witness :
    App.is_blocked App.blockedGame 0 3 = true ∧
    App.is_blocked App.ownStackGame 0 5 = false ∧
    (App.apply_move App.blockedGame 0 0).2 =
      [Event.blocked (App.getPlayer App.blockedGame 0).color] ∧
    (App.apply_move App.blockedGame 0 0).1.players.map App.Player.tokens =
      App.blockedGame.players.map App.Player.tokens :=
  c9_blocks_bar_enemy_entry_only App.blockedGame 0 1 3 (by decide) (by decide) (by decide)
    (by decide) App.ownStackGame 0 5 (by decide) App.blockedGame 0 0
    ⟨by decide, by decide, by decide, by decide⟩

theorem acap_aux_none (ps : List App.Player) : ∀ (i0 a : Nat) (pos : Int),
    (∀ j, j < ps.length → i0 + j ≠ a → App.countAt (ps.getD j App.dummyPlayer) pos ≠ 1) →
    App.check_capture_aux ps i0 a pos = (ps, none) := by
  induction ps with
  | nil => intro i0 a pos h; rfl
  | cons p rest ih =>
    intro i0 a pos h
    unfold App.check_capture_aux
    by_cases h1 : i0 = a
    · rw [if_pos h1]
      rw [ih (i0 + 1) a pos (fun j hj hne => h (j + 1) (by simpa using hj) (by omega))]
    · rw [if_neg h1]
      have hp : App.countAt p pos ≠ 1 := h 0 (by simp) (by omega)
      rw [if_neg hp]
      rw [ih (i0 + 1) a pos (fun j hj hne => h (j + 1) (by simpa using hj) (by omega))]

theorem acap_aux_some (ps : List App.Player) : ∀ (i0 a : Nat) (pos : Int) (j : Nat),
    j < ps.length → i0 + j ≠ a → App.countAt (ps.getD j App.dummyPlayer) pos = 1 →
    (App.check_capture_aux ps i0 a pos).2.isSome = true := by
  induction ps with
  | nil => intro i0 a pos j hj; simp at hj
  | cons p rest ih =>
    intro i0 a pos j hj hne hcnt
    unfold App.check_capture_aux
    by_cases h1 : i0 = a
    · rw [if_pos h1]
      cases j with
      | zero => omega
      | succ m => exact ih (i0 + 1) a pos m (by simpa using hj) (by omega) hcnt
    · rw [if_neg h1]
      by_cases h2 : App.countAt p pos = 1
      · rw [if_pos h2]
        rfl
      · rw [if_neg h2]
        cases j with
        | zero => exact absurd hcnt h2
        | succ m => exact ih (i0 + 1) a pos m (by simpa using hj) (by omega) hcnt

theorem asbf_base_le (toks : List App.Token) (pos : Int) :
    (App.sendBackFirst toks pos).countP (fun t => t.pos == -1) ≤
      toks.countP (fun t => t.pos == -1) + 1 := by
  induction toks with
  | nil => simp [App.sendBackFirst]
  | cons t rest ih =>
    unfold App.sendBackFirst
    by_cases h : (t.pos == pos && decide (t.stretch < 0) && !t.finished) = true
    · rw [if_pos h]
      simp [List.countP_cons]
    · rw [if_neg h]
      simp only [List.countP_cons]
      have := ih
      omega

theorem aatBase_cons (p : App.Player) (rest : List App.Player) :
    App.atBase (p :: rest) = p.tokens.countP (fun t => t.pos == -1) + App.atBase rest := rfl

theorem acap_aux_base_le (ps : List App.Player) : ∀ (i0 a : Nat) (pos : Int),
    App.atBase (App.check_capture_aux ps i0 a pos).1 ≤ App.atBase ps + 1 := by
  induction ps with
  | nil => intro i0 a pos; simp [App.check_capture_aux, App.atBase]
  | cons p rest ih =>
    intro i0 a pos
    unfold App.check_capture_aux
    by_cases h1 : i0 = a
    · rw [if_pos h1]
      have := ih (i0 + 1) a pos
      simp only [aatBase_cons]
      omega
    · rw [if_neg h1]
      by_cases h2 : App.countAt p pos = 1
      · rw [if_pos h2]
        have := asbf_base_le p.tokens pos
        simp only [aatBase_cons]
        omega
      · rw [if_neg h2]
        have := ih (i0 + 1) a pos
        simp only [aatBase_cons]
        omega

theorem scap_aux_some (ps : List Server.Player) : ∀ (i0 m : Nat) (pos : Int) (j : Nat),
    j < ps.length → i0 + j ≠ m → (ps.getD j Server.dummyPlayer).tokens.any
      (Server.isVictim pos) = true →
    (Server.check_capture_aux ps i0 m pos).2.isSome = true := by
  induction ps with
  | nil => intro i0 m pos j hj; simp at hj
  | cons p rest ih =>
    intro i0 m pos j hj hne hvic
    unfold Server.check_capture_aux
    by_cases h1 : i0 = m
    · rw [if_pos h1]
      cases j with
      | zero => omega
      | succ k => exact ih (i0 + 1) m pos k (by simpa using hj) (by omega) hvic
    · rw [if_neg h1]
      by_cases h2 : p.tokens.any (Server.isVictim pos) = true
      · rw [if_pos h2]
        rfl
      · rw [if_neg h2]
        cases j with
        | zero => exact absurd hvic h2
        | succ k => exact ih (i0 + 1) m pos k (by simpa using hj) (by omega) hvic

/-- C4 amended.  App side (parts 1-4): a safe cell is never captured; if no
enemy seat has EXACTLY ONE token on the cell nothing is captured (so a 2+
stack of one seat is immune); if some enemy seat has exactly one token
there, a capture fires; and a capture sends at most one token back to base.
Server side (part 5): there is no block immunity — any enemy token on a
non-safe cell is captured, stacks included. -/
theorem c4_per_seat_capture_and_server_no_immunity
    (g1 : App.Game) (a1 : Nat) (tok1 : App.Token)
    (hsafe : tok1.pos ∈ App.SAFE_SQUARES)
    (g2 : App.Game) (a2 : Nat) (tok2 : App.Token)
    (himm : ∀ i, i < g2.players.length → i ≠ a2 →
      App.countAt (App.getPlayer g2 i) tok2.pos ≠ 1)
    (g3 : App.Game) (a3 : Nat) (tok3 : App.Token)
    (hg3 : ¬ (tok3.pos < 0 ∨ 0 ≤ tok3.stretch))
    (hns3 : ¬ (tok3.pos ∈ App.SAFE_SQUARES))
    (hex3 : ∃ i, i < g3.players.length ∧ i ≠ a3 ∧
      App.countAt (App.getPlayer g3 i) tok3.pos = 1)
    (g4 : App.Game) (a4 : Nat) (tok4 : App.Token)
    (g5 : Server.Game) (m5 : Nat) (pos5 : Int)
    (hns5 : ¬ (pos5 ∈ Server.SAFE_IDX))
    (hex5 : ∃ i, i < g5.players.length ∧ i ≠ m5 ∧
      (Server.getPlayer g5 i).tokens.any (Server.isVictim pos5) = true) :
    App.check_capture g1 a1 tok1 = (g1, none) ∧
    App.check_capture g2 a2 tok2 = (g2, none) ∧
    (App.check_capture g3 a3 tok3).2.isSome = true ∧
    App.atBase (App.check_capture g4 a4 tok4).1.players ≤ App.atBase g4.players + 1 ∧
    (Server.check_capture g5 m5 pos5).2.isSome = true := by
  refine ⟨?_, ?_, ?_, ?_, ?_⟩
  · unfold App.check_capture
    by_cases h1 : tok1.pos < 0 ∨ 0 ≤ tok1.stretch
    · rw [if_pos h1]
    · rw [if_neg h1, if_pos hsafe]
  · unfold App.check_capture
    by_cases h1 : tok2.pos < 0 ∨ 0 ≤ tok2.stretch
    · rw [if_pos h1]
    · rw [if_neg h1]
      by_cases h2 : tok2.pos ∈ App.SAFE_SQUARES
      · rw [if_pos h2]
      · rw [if_neg h2]
        rw [acap_aux_none g2.players 0 a2 tok2.pos
          (fun j hj hne => himm j hj (by omega))]
  · obtain ⟨i, hi, hne, hcnt⟩ := hex3
    unfold App.check_capture
    rw [if_neg hg3, if_neg hns3]
    exact acap_aux_some g3.players 0 a3 tok3.pos i hi (by omega) hcnt
  · unfold App.check_capture
    by_cases h1 : tok4.pos < 0 ∨ 0 ≤ tok4.stretch
    · rw [if_pos h1]
      exact Nat.le_succ _
    · rw [if_neg h1]
      by_cases h2 : tok4.pos ∈ App.SAFE_SQUARES
      · rw [if_pos h2]
        exact Nat.le_succ _
      · rw [if_neg h2]
        exact acap_aux_base_le g4.players 0 a4 tok4.pos
  · obtain ⟨i, hi, hne, hvic⟩ := hex5
    unfold Server.check_capture
    rw [if_neg hns5]
    exact scap_aux_some g5.players 0 m5 pos5 i hi (by omega) hvic

theorem c4_per_seat_capture_and_server_no_immunity_witness :
    App.check_capture App.g0 0 ⟨0, 0, -1, false⟩ = (App.g0, none) ∧
    App.check_capture App.blockedGame 0 ⟨0, 3, -1, false⟩ = (App.blockedGame, none) ∧
    (App.check_capture App.blockedGame 1 ⟨0, 1, -1, false⟩).2.isSome = true ∧
    App.atBase (App.check_capture App.blockedGame 0 ⟨0, 3, -1, false⟩).1.players ≤
      App.atBase App.blockedGame.players + 1 ∧
    (Server.check_capture Server.stackCaptureGame 0 3).2.isSome = true :=
  c4_per_seat_capture_and_server_no_immunity
    App.g0 0 ⟨0, 0, -1, false⟩ (by decide)
    App.blockedGame 0 ⟨0, 3, -1, false⟩ (by decide)
    App.blockedGame 1 ⟨0, 1, -1, false⟩ (by decide) (by decide) (by decide)
    App.blockedGame 0 ⟨0, 3, -1, false⟩
    Server.stackCaptureGame 0 3 (by decide) (by decide)

theorem astart_safe (c : Color) : App.START_IDX c ∈ App.SAFE_SQUARES := by
  cases c <;> decide

theorem sstart_safe (c : Color) : Server.START_IDX c ∈ Server.SAFE_IDX := by
  cases c <;> decide

theorem acap_safe (g : App.Game) (a : Nat) (tok : App.Token)
    (h : tok.pos ∈ App.SAFE_SQUARES) : App.check_capture g a tok = (g, none) := by
  unfold App.check_capture
  by_cases h1 : tok.pos < 0 ∨ 0 ≤ tok.stretch
  · rw [if_pos h1]
  · rw [if_neg h1, if_pos h]

theorem scap_safe (g : Server.Game) (m : Nat) (pos : Int)
    (h : pos ∈ Server.SAFE_IDX) : Server.check_capture g m pos = (g, none) := by
  unfold Server.check_capture
  rw [if_pos h]

/-- C10: every seat's board-entry cell is in the safe set in both variants,
so the capture check after a base exit always resolves to nothing: a move
out of AtBase can never emit a Capture event, in any session state. -/
theorem c10_base_entry_never_captures
    (g : App.Game) (pIdx tIdx : Nat)
    (hb : (App.getToken g pIdx tIdx).pos = -1)
    (gS : Server.Game) (ps tid tIdx2 : Nat)
    (hfindS : Server.tokenIdxOf (Server.getPlayer gS ps) tid = some tIdx2)
    (hbS : ((Server.getPlayer gS ps).tokens.getD tIdx2 Server.dummyToken).pos = -1) :
    (COLORS.all (fun c => decide (App.START_IDX c ∈ App.SAFE_SQUARES) &&
        decide (Server.START_IDX c ∈ Server.SAFE_IDX))) = true ∧
    (App.apply_move g pIdx tIdx).2.all (fun e => !e.isCapture) = true ∧
    (Server.move_token gS ps tid).2.2.all (fun e => !e.isCapture) = true := by
  refine ⟨by decide, ?_, ?_⟩
  · simp only [App.apply_move]
    rw [if_pos hb]
    unfold App.exitBase
    simp only []
    by_cases hblk : App.is_blocked
        (App.modifyPlayer g pIdx (fun p => { p with last_moved_token := some tIdx })) pIdx
        (App.START_IDX (App.getPlayer g pIdx).color) = true
    · rw [if_pos hblk]
      rfl
    · rw [if_neg hblk]
      unfold App.landOnTrack
      rw [acap_safe _ pIdx _ (astart_safe (App.getPlayer g pIdx).color)]
      rfl
  · simp only [Server.move_token, hfindS]
    by_cases hcm : Server.can_move
        ((Server.getPlayer gS ps).tokens.getD tIdx2 Server.dummyToken)
        gS.dice_value (Server.getPlayer gS ps).color = true
    · rw [if_neg (not_not_intro hcm), if_pos hbS]
      unfold Server.moveFromBase
      unfold Server.captureEvents
      rw [scap_safe _ ps _ (sstart_safe (Server.getPlayer gS ps).color)]
      show (Server.finishCheck _ ps (Server.getPlayer gS ps).color _).2.all _ = true
      unfold Server.finishCheck
      split <;> rfl
    · rw [if_pos hcm]
      rfl

theorem c10_base_entry_never_captures_witness :
    (COLORS.all (fun c => decide (App.START_IDX c ∈ App.SAFE_SQUARES) &&
        decide (Server.START_IDX c ∈ Server.SAFE_IDX))) = true ∧
    (App.apply_move App.baseExitGame 0 0).2.all (fun e => !e.isCapture) = true ∧
    (Server.move_token Server.baseExitGame 0 0).2.2.all (fun e => !e.isCapture) = true :=
  c10_base_entry_never_captures App.baseExitGame 0 0 (by decide)
    Server.baseExitGame 0 0 0 (by decide) (by decide)

/-- C1: when the current seat's streak reaches 3 on a roll of 6 (previous
streak at least 2), `next_turn` forfeits the turn no matter what
`rolled_six` flag it was given: the seat's non-Finished last-moved token is
returned to base (`pos = -1`, `stretch = -1`), the streak resets to 0, and
`current_player` advances with `extra_turn` cleared — no bonus despite the
6. -/
theorem c1_triple_six_forfeits_turn
    (g : App.Game) (li : Nat) (b : Bool)
    (hgo : g.game_over = false)
    (hlen : g.players.length = 4)
    (hcur : g.current_player < 4)
    (htl : (App.getPlayer g g.current_player).tokens.length = 4)
    (hli : li < 4)
    (hdice : g.dice_value = 6)
    (hstreak : 2 ≤ g.six_streak g.current_player)
    (hlast : (App.getPlayer g g.current_player).last_moved_token = some li)
    (hfin : (App.getToken g g.current_player li).finished = false)
    (hloc : (App.getToken g g.current_player li).pos ≥ 0 ∨
            (App.getToken g g.current_player li).stretch ≥ 0) :
    (App.getToken (App.next_turn g b) g.current_player li).pos = -1 ∧
    (App.getToken (App.next_turn g b) g.current_player li).stretch = -1 ∧
    (App.next_turn g b).six_streak g.current_player = 0 ∧
    (App.next_turn g b).current_player = (g.current_player + 1) % 4 ∧
    (App.next_turn g b).extra_turn = false := by
  have c0 : ¬ (g.game_over = true) := by rw [hgo]; exact Bool.false_ne_true
  have hd : decide (g.six_streak g.current_player + 1 ≥ 3) = true :=
    decide_eq_true (by omega)
  have hlast2 : (App.getPlayer { g with rolled := false, six_streak := Function.update g.six_streak g.current_player (g.six_streak g.current_player + 1) } g.current_player).last_moved_token = some li := hlast
  have hloc2 : ((App.getPlayer { g with rolled := false, six_streak := Function.update g.six_streak g.current_player (g.six_streak g.current_player + 1) } g.current_player).tokens.getD li App.dummyToken).pos ≥ 0 ∨
      ((App.getPlayer { g with rolled := false, six_streak := Function.update g.six_streak g.current_player (g.six_streak g.current_player + 1) } g.current_player).tokens.getD li App.dummyToken).stretch ≥ 0 := hloc
  have hglen : g.current_player < g.players.length := by omega
  have hgtl : li < (App.getPlayer g g.current_player).tokens.length := by omega
  have hglen2 : g.current_player < ({ g with rolled := false, six_streak := Function.update g.six_streak g.current_player (g.six_streak g.current_player + 1) } : App.Game).players.length := hglen
  have hgtl2 : li < (App.getPlayer ({ g with rolled := false, six_streak := Function.update g.six_streak g.current_player (g.six_streak g.current_player + 1) } : App.Game) g.current_player).tokens.length := hgtl
  unfold App.next_turn
  rw [if_neg c0]
  unfold App.check_triple_six
  simp only []
  rw [if_pos hdice]
  rw [if_pos hd]
  rw [hlast2]
  simp only []
  rw [if_pos hloc2]
  rw [if_neg (Bool.false_ne_true)]
  rw [if_pos hd]
  refine ⟨?_, ?_, ?_, rfl, rfl⟩
  · show (App.getToken (App.modifyToken { g with rolled := false, six_streak := Function.update g.six_streak g.current_player (g.six_streak g.current_player + 1) }
      g.current_player li (fun t => { t with pos := -1, stretch := -1 })) g.current_player li).pos = -1
    rw [agetToken_modifyToken_self _ g.current_player li _ hglen2 hgtl2]
  · show (App.getToken (App.modifyToken { g with rolled := false, six_streak := Function.update g.six_streak g.current_player (g.six_streak g.current_player + 1) }
      g.current_player li (fun t => { t with pos := -1, stretch := -1 })) g.current_player li).stretch = -1
    rw [agetToken_modifyToken_self _ g.current_player li _ hglen2 hgtl2]
  · show Function.update ((App.modifyToken { g with rolled := false, six_streak := Function.update g.six_streak g.current_player (g.six_streak g.current_player + 1) }
      g.current_player li (fun t => { t with pos := -1, stretch := -1 })).six_streak)
      g.current_player 0 g.current_player = 0
    simp [Function.update]

theorem c1_triple_six_forfeits_turn_witness :
    (App.getToken (App.next_turn App.tripleSixGame true) 0 0).pos = -1 ∧
    (App.getToken (App.next_turn App.tripleSixGame true) 0 0).stretch = -1 ∧
    (App.next_turn App.tripleSixGame true).six_streak 0 = 0 ∧
    (App.next_turn App.tripleSixGame true).current_player = (0 + 1) % 4 ∧
    (App.next_turn App.tripleSixGame true).extra_turn = false :=
  c1_triple_six_forfeits_turn App.tripleSixGame 0 true rfl rfl (by decide) rfl
    (by decide) rfl (by decide) rfl rfl (Or.inl (by decide))

theorem next_turn_bonus (g : App.Game)
    (hgo : g.game_over = false) (hdice : g.dice_value = 6)
    (hstreak : g.six_streak g.current_player ≤ 1) :
    (App.next_turn g true).current_player = g.current_player ∧
    (App.next_turn g true).extra_turn = true := by
  have c0 : ¬ (g.game_over = true) := by rw [hgo]; exact Bool.false_ne_true
  have hd : decide (g.six_streak g.current_player + 1 ≥ 3) = false :=
    decide_eq_false (by omega)
  have hnd : ¬ (decide (g.six_streak g.current_player + 1 ≥ 3) = true) := by
    rw [hd]; exact Bool.false_ne_true
  unfold App.next_turn
  rw [if_neg c0]
  unfold App.check_triple_six
  simp only []
  rw [if_pos hdice, if_neg hnd, if_neg hnd, if_pos (rfl : true = true)]
  exact ⟨rfl, rfl⟩

theorem next_turn_advance (g : App.Game)
    (hgo : g.game_over = false) (hdice : ¬ (g.dice_value = 6)) :
    (App.next_turn g false).current_player = (g.current_player + 1) % 4 ∧
    (App.next_turn g false).extra_turn = false := by
  have c0 : ¬ (g.game_over = true) := by rw [hgo]; exact Bool.false_ne_true
  have hnd : ¬ (decide ((0 : Nat) ≥ 3) = true) := by decide
  unfold App.next_turn
  rw [if_neg c0]
  unfold App.check_triple_six
  simp only []
  rw [if_neg hdice, if_neg hnd, if_neg hnd, if_neg Bool.false_ne_true]
  exact ⟨rfl, rfl⟩

/-- C7: a 6 that is not the 3rd consecutive one keeps the seat: app.py's
`next_turn` leaves `current_player` unchanged and sets `extra_turn`, and
this holds even when the roll had no movable token (the `on_roll_dice`
no-move path resolves through the same `next_turn`).  Any non-6 outcome
advances the seat mod 4 and clears `extra_turn`.  server.py's `next_turn`
likewise keeps the seat on `gave_bonus` and advances otherwise. -/
theorem c7_six_grants_extra_turn
    (g1 : App.Game) (h1go : g1.game_over = false) (h1d : g1.dice_value = 6)
    (h1s : g1.six_streak g1.current_player ≤ 1)
    (g2 : App.Game) (h2go : g2.game_over = false) (h2d : ¬ (g2.dice_value = 6))
    (g3 : App.Game) (pIdx : Nat) (h3go : g3.game_over = false) (h3r : g3.rolled = false)
    (h3c : g3.current_player = pIdx) (h3s : g3.six_streak pIdx ≤ 1)
    (h3m : (App.movable { g3 with dice_value := 6, rolled := true } pIdx).isEmpty = true)
    (g4 : Server.Game) (h4go : g4.game_over = false) :
    ((App.next_turn g1 true).current_player = g1.current_player ∧
     (App.next_turn g1 true).extra_turn = true) ∧
    ((App.next_turn g2 false).current_player = (g2.current_player + 1) % 4 ∧
     (App.next_turn g2 false).extra_turn = false) ∧
    ((App.on_roll_dice g3 pIdx 6).current_player = g3.current_player ∧
     (App.on_roll_dice g3 pIdx 6).extra_turn = true) ∧
    ((Server.next_turn g4 true).current = g4.current ∧
     (Server.next_turn g4 false).current = (g4.current + 1) % 4) := by
  refine ⟨next_turn_bonus g1 h1go h1d h1s, next_turn_advance g2 h2go h2d, ?_, ?_, ?_⟩
  · have hC : ¬ (g3.game_over = true ∨ g3.rolled = true) := by
      rw [h3go, h3r]; simp
    have hstreak3 : g3.six_streak g3.current_player ≤ 1 := by rw [h3c]; exact h3s
    unfold App.on_roll_dice
    rw [if_neg hC, if_neg (not_not_intro h3c)]
    simp only []
    rw [if_pos h3m]
    exact ⟨(next_turn_bonus { g3 with dice_value := 6, rolled := true } h3go rfl hstreak3).1,
           (next_turn_bonus { g3 with dice_value := 6, rolled := true } h3go rfl hstreak3).2⟩
  · have c0 : ¬ (g4.game_over = true) := by rw [h4go]; exact Bool.false_ne_true
    unfold Server.next_turn
    rw [if_neg c0, if_neg (not_not_intro rfl)]
  · have c0 : ¬ (g4.game_over = true) := by rw [h4go]; exact Bool.false_ne_true
    unfold Server.next_turn
    rw [if_neg c0, if_pos Bool.false_ne_true]

theorem c7_six_grants_extra_turn_witness :
    ((App.next_turn App.bonusGame true).current_player = App.bonusGame.current_player ∧
     (App.next_turn App.bonusGame true).extra_turn = true) ∧
    ((App.next_turn App.threeGame false).current_player =
       (App.threeGame.current_player + 1) % 4 ∧
     (App.next_turn App.threeGame false).extra_turn = false) ∧
    ((App.on_roll_dice App.noMoveGame 0 6).current_player =
       App.noMoveGame.current_player ∧
     (App.on_roll_dice App.noMoveGame 0 6).extra_turn = true) ∧
    ((Server.next_turn Server.g0 true).current = Server.g0.current ∧
     (Server.next_turn Server.g0 false).current = (Server.g0.current + 1) % 4) :=
  c7_six_grants_extra_turn App.bonusGame rfl rfl (by decide)
    App.threeGame rfl (by decide)
    App.noMoveGame 0 rfl rfl rfl (by decide) (by decide)
    Server.g0 rfl
